import Mathlib

/-!
Verification development for two components of the VTK fragment:
the minimal standard random sequence (Park-Miller PMMLCG) declared in
src/Common/Core/vtkMinimalStandardRandomSequence.h, and the rotational
extrusion filter declared in src/graphics/vtkRotationalExtrusionFilter.h.
The repository fragment contains only the class headers; the method
bodies are modelled from the specification, as marked on each
definition.  C++ doubles and floats are modelled as rationals, C++ int
as Int with explicit range hypotheses where the range matters.
-/

namespace MinStd

/-- Modelled from the spec: missing body of
vtkMinimalStandardRandomSequence::Next.
Park-Miller step: seed is replaced by (16807 * seed) mod (2^31 - 1). -/
def Next (s : Int) : Int :=
  (16807 * s) % 2147483647

/-- Modelled from the spec: missing body of
vtkMinimalStandardRandomSequence::SetSeedOnly.  The value is normalized
toward the valid range: 2147483646 is added to a null or negative
value, and 2147483647 is changed to 1; no advance is performed. -/
def SetSeedOnly (v : Int) : Int :=
  if v < 1 then v + 2147483646
  else if v = 2147483647 then 1
  else v

/-- Modelled from the spec: missing body of
vtkMinimalStandardRandomSequence::SetSeed.  Same normalization as
SetSeedOnly, followed by three calls to Next to avoid the first random
number being proportional to the seed. -/
def SetSeed (v : Int) : Int :=
  Next (Next (Next (SetSeedOnly v)))

/-- Modelled from the spec: missing body of
vtkMinimalStandardRandomSequence::GetSeed, which returns the stored
seed. -/
def GetSeed (s : Int) : Int := s

/-- Modelled from the spec: missing body of
vtkMinimalStandardRandomSequence::GetValue, which returns
seed / 2147483647 as a double (modelled as a rational). -/
def GetValue (s : Int) : ℚ :=
  (s : ℚ) / 2147483647

/-- Modelled from the spec: missing body of
vtkMinimalStandardRandomSequence::GetRangeValue, which maps the current
value v in [0,1] to rangeMin + (rangeMax - rangeMin) * v. -/
def GetRangeValue (rangeMin rangeMax v : ℚ) : ℚ :=
  rangeMin + (rangeMax - rangeMin) * v

/-- Iterate Next a given number of times. -/
def iterNext : Nat → Int → Int
  | 0, s => s
  | n + 1, s => iterNext n (Next s)

end MinStd

namespace RotExt

/-- Modelled from the spec: configuration state of
vtkRotationalExtrusionFilter (Resolution, Capping, Angle, Translation,
DeltaRadius); C++ int fields as Int, C++ float fields as rationals. -/
structure ExtrusionParams where
  Resolution : Int
  Capping : Int
  Angle : ℚ
  Translation : ℚ
  DeltaRadius : ℚ

/-- Modelled from the spec: defaults installed by New (capping on, angle
360, resolution 12, no translation, no radius change). -/
def defaultParams : ExtrusionParams :=
  { Resolution := 12, Capping := 1, Angle := 360, Translation := 0, DeltaRadius := 0 }

/-- Modelled from the spec: missing expansion of the clamping setter
generated for Resolution with bounds 1 and VTK_LARGE_INTEGER
(2147483647); the value is clamped into that range and stored, nothing
else changes. -/
def SetResolution (p : ExtrusionParams) (v : Int) : ExtrusionParams :=
  { p with Resolution := if v < 1 then 1 else if 2147483647 < v then 2147483647 else v }

/-- Modelled from the spec: missing expansion of the plain setter
generated for Angle; the float value is stored unchanged. -/
def SetAngle (p : ExtrusionParams) (v : ℚ) : ExtrusionParams :=
  { p with Angle := v }

/-- Modelled from the spec: missing expansion of the plain setter
generated for Translation; the float value is stored unchanged. -/
def SetTranslation (p : ExtrusionParams) (v : ℚ) : ExtrusionParams :=
  { p with Translation := v }

/-- Modelled from the spec: missing expansion of the plain setter
generated for DeltaRadius; the float value is stored unchanged. -/
def SetDeltaRadius (p : ExtrusionParams) (v : ℚ) : ExtrusionParams :=
  { p with DeltaRadius := v }

/-- Modelled from the spec: missing expansion of the getter generated
for Resolution. -/
def GetResolution (p : ExtrusionParams) : Int := p.Resolution

/-- Modelled from the spec: missing expansion of the getter generated
for Capping. -/
def GetCapping (p : ExtrusionParams) : Int := p.Capping

/-- Modelled from the spec: missing expansion of the getter generated
for Angle. -/
def GetAngle (p : ExtrusionParams) : ℚ := p.Angle

/-- Modelled from the spec: missing expansion of the getter generated
for Translation. -/
def GetTranslation (p : ExtrusionParams) : ℚ := p.Translation

/-- Modelled from the spec: missing expansion of the getter generated
for DeltaRadius. -/
def GetDeltaRadius (p : ExtrusionParams) : ℚ := p.DeltaRadius

/-- Modelled from the spec: the full-revolution predicate of section 4.3,
true when the absolute value of Angle is an integer multiple of 360,
Translation is 0 and DeltaRadius is 0.  A rational is a multiple of 360
exactly when it has denominator 1 and its numerator is divisible by
360. -/
def isFullRev (p : ExtrusionParams) : Bool :=
  (p.Angle.den == 1) && (p.Angle.num % 360 == 0)
    && (p.Translation == 0) && (p.DeltaRadius == 0)

/-- Modelled from the spec: a polygonal dataset, point coordinates of an
abstract type P plus the four cell arrays (vertices, lines, polygons,
triangle strips), each cell an ordered list of point indices. -/
structure Mesh (P : Type) where
  points : List P
  verts : List (List Nat)
  lines : List (List Nat)
  polys : List (List Nat)
  strips : List (List Nat)

/-- Concatenation of the lists produced by f over a list. -/
def catMap {α β : Type} (f : α → List β) : List α → List β
  | [] => []
  | x :: xs => f x ++ catMap f xs

/-- Occurrence count of an element in a list. -/
def countE {α : Type} [DecidableEq α] (e : α) : List α → Nat
  | [] => 0
  | x :: xs => (if x = e then 1 else 0) + countE e xs

/-- Modelled from the spec: the edge key, the unordered pair written with
the smaller index first. -/
def edgeKey (i j : Nat) : Nat × Nat := (min i j, max i j)

/-- Modelled from the spec: the boundary edges of a polygon cell, each
consecutive pair plus the closing edge. -/
def polygonEdges (c : List Nat) : List (Nat × Nat) :=
  (c.zip (c.drop 1 ++ c.take 1)).map (fun q => edgeKey q.1 q.2)

/-- Modelled from the spec: for a triangle strip, the two outer edges of
each triangle (the two edges that touch the newest point of the
triangle; the remaining edge was contributed by the previous triangle,
so every strip edge is recorded once).  The spec leaves the exact
strip-unrolling detail to the implementer. -/
def stripEdges : List Nat → List (Nat × Nat)
  | a :: b :: c :: rest => edgeKey a c :: edgeKey b c :: stripEdges (b :: c :: rest)
  | _ => []

/-- Modelled from the spec: all edge keys contributed by 2D cells
(polygons and triangle strips), with multiplicity. -/
def edgeList {P : Type} (m : Mesh P) : List (Nat × Nat) :=
  catMap polygonEdges m.polys ++ catMap stripEdges m.strips

/-- Modelled from the spec: the usage count of an edge among 2D cells. -/
def edgeUseCount {P : Type} (m : Mesh P) (e : Nat × Nat) : Nat :=
  countE e (edgeList m)

/-- Modelled from the spec: the free edges, those used by exactly one 2D
cell, in input order. -/
def freeEdges {P : Type} (m : Mesh P) : List (Nat × Nat) :=
  (edgeList m).filter (fun e => countE e (edgeList m) == 1)

/-- Modelled from the spec: ring index with closure, ring Resolution is
identified with ring 0 on a closed sweep. -/
def ringIdx (closed : Bool) (res k : Nat) : Nat :=
  if closed then k % res else k

/-- Modelled from the spec: the skirt quad generated by an edge at sweep
step k, referencing rings k and k+1 in the ring-major output index map. -/
def quadOf (closed : Bool) (res n : Nat) (e : Nat × Nat) (k : Nat) : List Nat :=
  [ringIdx closed res k * n + e.1, ringIdx closed res k * n + e.2,
   ringIdx closed res (k + 1) * n + e.1, ringIdx closed res (k + 1) * n + e.2]

/-- Modelled from the spec: the Resolution skirt quads of one edge, one
per sweep step. -/
def quadStrip (closed : Bool) (res n : Nat) (e : Nat × Nat) : List (List Nat) :=
  (List.range res).map (quadOf closed res n e)

/-- Modelled from the spec: the segments of a line or polyline cell. -/
def lineSegments (c : List Nat) : List (Nat × Nat) :=
  c.zip (c.drop 1)

/-- Modelled from the spec: the polyline swept by an isolated vertex,
one point per ring with closure on a full revolution. -/
def vertexPolyLine (closed : Bool) (res n a : Nat) : List Nat :=
  (List.range (res + 1)).map (fun k => ringIdx closed res k * n + a)

/-- Modelled from the spec: the output points in ring-major order, ring k
holding the input points transformed by the step-k sweep transform. -/
def ringsPoints {P : Type} (trans : Nat → P → P) (pts : List P) : Nat → List P
  | 0 => []
  | n + 1 => ringsPoints trans pts n ++ pts.map (trans n)

/-- Modelled from the spec: a cap cell at ring res with reversed
orientation. -/
def capAtTop (res n : Nat) (c : List Nat) : List Nat :=
  (c.map (fun i => res * n + i)).reverse

/-- Modelled from the spec: missing body of
vtkRotationalExtrusionFilter::Execute, assembled per sections 3 and
4.2-4.6 of the spec.  The per-ring point transform (rotation by
Angle*k/Resolution degrees, z translation, radial scaling; section 4.3)
uses trigonometric functions on doubles and is abstracted as the
argument trans; the combinatorial structure of the output does not
depend on it.  Output: the rings of points; the free-edge skirt quads,
then the line-segment skirt quads, then caps at ring 0 and ring
Resolution when capping is on and the sweep is not closed; polylines
from isolated vertices. -/
def Execute {P : Type} (p : ExtrusionParams) (trans : Nat → P → P) (m : Mesh P) :
    Mesh P :=
  let n := m.points.length
  let res := p.Resolution.toNat
  let closed := isFullRev p
  let numRings := if closed then res else res + 1
  let doCap := (p.Capping != 0) && (! closed)
  { points := ringsPoints trans m.points numRings
    verts := []
    lines := (catMap id m.verts).map (vertexPolyLine closed res n)
    polys := catMap (quadStrip closed res n) (freeEdges m)
             ++ catMap (quadStrip closed res n) (catMap lineSegments m.lines)
             ++ (if doCap then m.polys ++ m.polys.map (capAtTop res n) else [])
    strips := if doCap then m.strips ++ m.strips.map (capAtTop res n) else [] }

/-- Concrete input: a single square polygon on four points (scenario 3
of the spec). -/
def sqMesh : Mesh Nat :=
  { points := [10, 20, 30, 40], verts := [], lines := [],
    polys := [[0, 1, 2, 3]], strips := [] }

/-- Concrete sweep transform over abstract points for tests. -/
def sqTrans : Nat → Nat → Nat := fun k x => 100 * k + x

/-- Concrete parameters: half revolution, resolution 2, capping on. -/
def sqParams : ExtrusionParams :=
  { Resolution := 2, Capping := 1, Angle := 180, Translation := 0, DeltaRadius := 0 }

/-- Concrete parameters: full revolution, resolution 2, capping on. -/
def capParams : ExtrusionParams :=
  { Resolution := 2, Capping := 1, Angle := 360, Translation := 0, DeltaRadius := 0 }

/-- Concrete input: one line cell on two points (scenario 1 of the
spec). -/
def circMesh : Mesh Nat :=
  { points := [10, 20], verts := [], lines := [[0, 1]], polys := [], strips := [] }

/-- Concrete parameters: full revolution, resolution 4, capping on. -/
def circParams : ExtrusionParams :=
  { Resolution := 4, Capping := 1, Angle := 360, Translation := 0, DeltaRadius := 0 }

end RotExt

namespace MinStd

/-- Helper: GetSeed returns the stored seed unchanged. -/
theorem GetSeed_eq (s : Int) : GetSeed s = s := rfl

/-- Helper: one Park-Miller step keeps a seed inside [1, 2147483646]. -/
theorem Next_mem (s : Int) (h1 : 1 ≤ s) (h2 : s ≤ 2147483646) :
    1 ≤ Next s ∧ Next s ≤ 2147483646 := by
  unfold Next
  constructor
  · have hub : (16807 * s) % 2147483647 ≠ 0 := by
      intro h0
      have hdvd : (2147483647 : Int) ∣ 16807 * s := Int.dvd_of_emod_eq_zero h0
      have hdvdn : (2147483647 : Nat) ∣ (16807 * s).natAbs := by
        have := Int.natAbs_dvd_natAbs.mpr hdvd
        simpa using this
      have hmul : (16807 * s).natAbs = 16807 * s.natAbs := by
        simpa using Int.natAbs_mul 16807 s
      rw [hmul] at hdvdn
      have hcop : Nat.Coprime 2147483647 16807 := by decide
      have hdvds : (2147483647 : Nat) ∣ s.natAbs := hcop.dvd_of_dvd_mul_left hdvdn
      have hlt : s.natAbs < 2147483647 := by
        have : s < 2147483647 := by omega
        omega
      have hpos : 0 < s.natAbs := by omega
      exact absurd (Nat.le_of_dvd hpos hdvds) (by omega)
    have hnonneg : 0 ≤ (16807 * s) % 2147483647 :=
      Int.emod_nonneg _ (by norm_num)
    omega
  · have := Int.emod_lt_of_pos (16807 * s) (show (0:Int) < 2147483647 by norm_num)
    omega

/-- Helper: the normalization lands in [1, 2147483646] whenever the
input exceeds -2147483646. -/
theorem SetSeedOnly_mem (v : Int) (h1 : -2147483645 ≤ v) (h2 : v ≤ 2147483647) :
    1 ≤ SetSeedOnly v ∧ SetSeedOnly v ≤ 2147483646 := by
  unfold SetSeedOnly
  split
  · omega
  · split
    · omega
    · omega

/-- Helper: GetValue of a seed in [1, 2147483646] lies in [0, 1]. -/
theorem GetValue_mem (s : Int) (h1 : 1 ≤ s) (h2 : s ≤ 2147483646) :
    0 ≤ GetValue s ∧ GetValue s ≤ 1 := by
  unfold GetValue
  have hs0 : (0 : ℚ) ≤ (s : ℚ) := by exact_mod_cast le_trans (by norm_num) h1
  have hsu : (s : ℚ) ≤ 2147483646 := by exact_mod_cast h2
  constructor
  · positivity
  · rw [div_le_one (by norm_num)]
    linarith

/-- Helper: iterating Next is modular exponentiation, for a seed in
[0, 2147483646]. -/
theorem iterNext_eq_pow (n : Nat) (s : Int) (h0 : 0 ≤ s) (h1 : s < 2147483647) :
    iterNext n s = (16807 ^ n * s) % 2147483647 := by
  induction n generalizing s with
  | zero =>
      simp [iterNext, Int.emod_eq_of_lt h0 h1]
  | succ n ih =>
      have hub : Next s < 2147483647 :=
        Int.emod_lt_of_pos _ (by norm_num)
      have hlb : 0 ≤ Next s := Int.emod_nonneg _ (by norm_num)
      calc iterNext (n + 1) s = iterNext n (Next s) := rfl
        _ = (16807 ^ n * Next s) % 2147483647 := ih _ hlb hub
        _ = (16807 ^ n * (16807 * s)) % 2147483647 := by
              unfold Next
              rw [Int.mul_emod, Int.emod_emod_of_dvd _ dvd_rfl, ← Int.mul_emod]
        _ = (16807 ^ (n + 1) * s) % 2147483647 := by ring_nf

end MinStd

namespace RotExt

/-- Helper: counting inside a filtered list. -/
theorem countE_filter {α : Type} [DecidableEq α] (f : α → Bool) (e : α) :
    (l : List α) → countE e (l.filter f) = if f e = true then countE e l else 0
  | [] => by simp [countE]
  | x :: xs => by
      by_cases hfx : f x = true
      · by_cases hxe : x = e
        · subst hxe
          simp [List.filter_cons, hfx, countE, countE_filter f x xs]
        · simp [List.filter_cons, hfx, countE, hxe, countE_filter f e xs]
      · by_cases hxe : x = e
        · subst hxe
          simp [List.filter_cons, hfx, countE, countE_filter f x xs]
        · simp [List.filter_cons, hfx, countE, hxe, countE_filter f e xs]

/-- Helper: each edge occurs in the free-edge list once if its usage
count is one, never otherwise. -/
theorem countE_freeEdges {P : Type} (m : Mesh P) (e : Nat × Nat) :
    countE e (freeEdges m) = if edgeUseCount m e = 1 then 1 else 0 := by
  unfold freeEdges edgeUseCount
  rw [countE_filter]
  by_cases h : countE e (edgeList m) = 1
  · simp [h]
  · simp [h]

/-- Helper: a quad strip holds one quad per sweep step. -/
theorem quadStrip_length (closed : Bool) (res n : Nat) (e : Nat × Nat) :
    (quadStrip closed res n e).length = res := by
  simp [quadStrip]

/-- Helper: length of a concatenation whose pieces have equal length. -/
theorem catMap_length_const {α β : Type} (f : α → List β) (c : Nat)
    (h : ∀ x, (f x).length = c) :
    (l : List α) → (catMap f l).length = l.length * c
  | [] => by simp [catMap]
  | x :: xs => by
      simp [catMap, h x, catMap_length_const f c h xs, Nat.succ_mul, Nat.add_comm]

/-- Helper: ring-major point buffer length. -/
theorem ringsPoints_length {P : Type} (trans : Nat → P → P) (pts : List P) :
    (n : Nat) → (ringsPoints trans pts n).length = n * pts.length
  | 0 => by simp [ringsPoints]
  | n + 1 => by
      simp [ringsPoints, ringsPoints_length trans pts n, Nat.succ_mul]

/-- Helper: the point stored at ring-major position k * N + i is input
point i transformed at step k. -/
theorem ringsPoints_getElem {P : Type} (trans : Nat → P → P) (pts : List P) :
    (n : Nat) → (k i : Nat) → k < n → i < pts.length →
    (ringsPoints trans pts n)[k * pts.length + i]? = (pts[i]?).map (trans k)
  | 0, k, i, hk, _ => absurd hk (Nat.not_lt_zero k)
  | n + 1, k, i, hk, hi => by
      have hlen : (ringsPoints trans pts n).length = n * pts.length :=
        ringsPoints_length trans pts n
      by_cases hkn : k < n
      · have hlt : k * pts.length + i < (ringsPoints trans pts n).length := by
          rw [hlen]
          have h1 : k * pts.length + i < (k + 1) * pts.length := by
            rw [Nat.succ_mul]
            omega
          have h2 : (k + 1) * pts.length ≤ n * pts.length :=
            Nat.mul_le_mul_right _ hkn
          omega
        rw [ringsPoints, List.getElem?_append, if_pos hlt]
        exact ringsPoints_getElem trans pts n k i hkn hi
      · have hkeq : k = n := by omega
        subst hkeq
        have hge : ¬ k * pts.length + i < (ringsPoints trans pts k).length := by
          rw [hlen]
          omega
        rw [ringsPoints, List.getElem?_append, if_neg hge, hlen]
        have heq : k * pts.length + i - k * pts.length = i := by omega
        rw [heq, List.getElem?_map]

/-- Spec scenario 1 check, line to cylinder: a line on two points, full
revolution at resolution 4, gives 8 points and 4 quads with no caps. -/
theorem scenario_line_to_cylinder :
    (Execute circParams sqTrans circMesh).points.length = 8
    ∧ (Execute circParams sqTrans circMesh).polys.length = 4
    ∧ (Execute circParams sqTrans circMesh).strips = [] := by
  refine ⟨by decide, by decide, by decide⟩

/-- Spec scenario 3 check, square half revolution at resolution 2: 12
points and 10 polygons (8 skirt quads plus the two caps). -/
theorem scenario_square_half_revolution :
    (Execute sqParams sqTrans sqMesh).points.length = 12
    ∧ (Execute sqParams sqTrans sqMesh).polys.length = 10 := by
  refine ⟨by decide, by decide⟩

/-- Check: the square polygon has exactly its four boundary edges free. -/
theorem square_free_edges :
    freeEdges sqMesh = [(0, 1), (1, 2), (2, 3), (0, 3)] := by
  decide

end RotExt

section
set_option exponentiation.threshold 20000

/-- C4: starting from the state produced by SetSeedOnly 1, after exactly
10000 calls to Next, GetSeed returns 1043618065. -/
theorem C4_seed_after_10000 :
    MinStd.GetSeed (MinStd.iterNext 10000 (MinStd.SetSeedOnly 1)) = 1043618065 := by
  have hs : MinStd.SetSeedOnly 1 = 1 := by decide
  rw [MinStd.GetSeed_eq, hs]
  have h := MinStd.iterNext_eq_pow 10000 1 (by decide) (by decide)
  have hn : (16807 : Nat) ^ 10000 % 2147483647 = 1043618065 := by decide
  rw [h, mul_one]
  exact_mod_cast hn

end

/-- C5: for every pair of rationals (lo, hi) in any order and every seed
satisfying the PRNG invariant, GetRangeValue lo hi applied to the current
value v returns lo + (hi - lo) * v, and the result lies in the closed
interval between min lo hi and max lo hi. -/
theorem C5_range_value (lo hi : ℚ) (s : Int)
    (h1 : 1 ≤ s) (h2 : s ≤ 2147483646) :
    MinStd.GetRangeValue lo hi (MinStd.GetValue s)
        = lo + (hi - lo) * MinStd.GetValue s
    ∧ min lo hi ≤ MinStd.GetRangeValue lo hi (MinStd.GetValue s)
    ∧ MinStd.GetRangeValue lo hi (MinStd.GetValue s) ≤ max lo hi := by
  obtain ⟨hv0, hv1⟩ := MinStd.GetValue_mem s h1 h2
  refine ⟨rfl, ?_, ?_⟩
  · unfold MinStd.GetRangeValue
    rcases le_total lo hi with h | h
    · rw [min_eq_left h]
      nlinarith
    · rw [min_eq_right h]
      nlinarith
  · unfold MinStd.GetRangeValue
    rcases le_total lo hi with h | h
    · rw [max_eq_right h]
      nlinarith
    · rw [max_eq_left h]
      nlinarith

/-- Witness for C5 at lo = 3, hi = 1 (decreasing order), seed 1. -/
theorem C5_range_value_witness :
    ((1 : Int) ≤ 1 ∧ (1 : Int) ≤ 2147483646)
    ∧ (MinStd.GetRangeValue 3 1 (MinStd.GetValue 1)
        = 3 + (1 - 3) * MinStd.GetValue 1
      ∧ min (3 : ℚ) 1 ≤ MinStd.GetRangeValue 3 1 (MinStd.GetValue 1)
      ∧ MinStd.GetRangeValue 3 1 (MinStd.GetValue 1) ≤ max (3 : ℚ) 1) :=
  ⟨⟨by decide, by decide⟩, C5_range_value 3 1 1 (by decide) (by decide)⟩

/-- C6 counterexample: at v = -2147483646 the normalization performed by
SetSeedOnly (and hence SetSeed) produces seed 0, outside [1, 2147483646],
so the claim fails as stated for this int value. -/
theorem C6_counterexample :
    ¬ ((1 ≤ MinStd.SetSeed (-2147483646) ∧ MinStd.SetSeed (-2147483646) ≤ 2147483646)
       ∧ (1 ≤ MinStd.SetSeedOnly (-2147483646)
          ∧ MinStd.SetSeedOnly (-2147483646) ≤ 2147483646)) := by
  decide

/-- C6 amended: for every int value v greater than -2147483646, both
SetSeed v and SetSeedOnly v leave the stored seed in [1, 2147483646];
no error is ever raised. -/
theorem C6_amended_seed_in_range (v : Int)
    (hlo : -2147483645 ≤ v) (hhi : v ≤ 2147483647) :
    (1 ≤ MinStd.SetSeed v ∧ MinStd.SetSeed v ≤ 2147483646)
    ∧ (1 ≤ MinStd.SetSeedOnly v ∧ MinStd.SetSeedOnly v ≤ 2147483646) := by
  have h1 := MinStd.SetSeedOnly_mem v hlo hhi
  have h2 := MinStd.Next_mem _ h1.1 h1.2
  have h3 := MinStd.Next_mem _ h2.1 h2.2
  have h4 := MinStd.Next_mem _ h3.1 h3.2
  exact ⟨h4, h1⟩

/-- Witness for the amended C6 at v = 0 (a null value, so 2147483646 is
added). -/
theorem C6_amended_seed_in_range_witness :
    ((-2147483645 : Int) ≤ 0 ∧ (0 : Int) ≤ 2147483647)
    ∧ ((1 ≤ MinStd.SetSeed 0 ∧ MinStd.SetSeed 0 ≤ 2147483646)
       ∧ (1 ≤ MinStd.SetSeedOnly 0 ∧ MinStd.SetSeedOnly 0 ≤ 2147483646)) :=
  ⟨⟨by decide, by decide⟩, C6_amended_seed_in_range 0 (by decide) (by decide)⟩

/-- C7: for every int value v, the state after SetSeed v equals the state
after SetSeedOnly v followed by exactly three calls to Next. -/
theorem C7_setseed_three_advances (v : Int) :
    MinStd.SetSeed v
      = MinStd.Next (MinStd.Next (MinStd.Next (MinStd.SetSeedOnly v))) := rfl

/-- C8 counterexample: from a state satisfying the invariant (seed 5),
the operation SetSeedOnly (-2147483647) produces seed -1, so the
predicate is not preserved by every PRNG operation. -/
theorem C8_counterexample :
    ((1 : Int) ≤ 5 ∧ (5 : Int) ≤ 2147483646)
    ∧ ¬ (1 ≤ MinStd.SetSeedOnly (-2147483647)
         ∧ MinStd.SetSeedOnly (-2147483647) ≤ 2147483646) := by
  decide

/-- C8 amended: the predicate seed in [1, 2147483646] is preserved by
Next, and by SetSeed and SetSeedOnly whenever the argument exceeds
-2147483646; in every state satisfying the predicate, GetValue returns
a value in [0, 1]. -/
theorem C8_amended_invariant (s v : Int)
    (hs1 : 1 ≤ s) (hs2 : s ≤ 2147483646)
    (hv1 : -2147483645 ≤ v) (hv2 : v ≤ 2147483647) :
    (1 ≤ MinStd.Next s ∧ MinStd.Next s ≤ 2147483646)
    ∧ (1 ≤ MinStd.SetSeedOnly v ∧ MinStd.SetSeedOnly v ≤ 2147483646)
    ∧ (1 ≤ MinStd.SetSeed v ∧ MinStd.SetSeed v ≤ 2147483646)
    ∧ (0 ≤ MinStd.GetValue s ∧ MinStd.GetValue s ≤ 1) := by
  have h1 := MinStd.SetSeedOnly_mem v hv1 hv2
  have h2 := MinStd.Next_mem _ h1.1 h1.2
  have h3 := MinStd.Next_mem _ h2.1 h2.2
  have h4 := MinStd.Next_mem _ h3.1 h3.2
  exact ⟨MinStd.Next_mem s hs1 hs2, h1, h4, MinStd.GetValue_mem s hs1 hs2⟩

/-- Witness for the amended C8 at seed 1 and v = 2147483647 (the value
that is replaced by 1). -/
theorem C8_amended_invariant_witness :
    ((1 : Int) ≤ 1 ∧ (1 : Int) ≤ 2147483646
     ∧ (-2147483645 : Int) ≤ 2147483647 ∧ (2147483647 : Int) ≤ 2147483647)
    ∧ ((1 ≤ MinStd.Next 1 ∧ MinStd.Next 1 ≤ 2147483646)
       ∧ (1 ≤ MinStd.SetSeedOnly 2147483647
          ∧ MinStd.SetSeedOnly 2147483647 ≤ 2147483646)
       ∧ (1 ≤ MinStd.SetSeed 2147483647 ∧ MinStd.SetSeed 2147483647 ≤ 2147483646)
       ∧ (0 ≤ MinStd.GetValue 1 ∧ MinStd.GetValue 1 ≤ 1)) :=
  ⟨⟨by decide, by decide, by decide, by decide⟩,
   C8_amended_invariant 1 2147483647 (by decide) (by decide) (by decide) (by decide)⟩

/-- C1: for every input mesh and Resolution at least 1, the output of
Execute starts with the free-edge skirt, in which each free edge (usage
count one among polygons and triangle strips) contributes exactly one
quad strip of Resolution quads, and an edge shared by more than one 2D
cell (or absent) contributes nothing. -/
theorem C1_free_edge_skirt {P : Type} (m : RotExt.Mesh P)
    (p : RotExt.ExtrusionParams) (trans : Nat → P → P)
    (e : Nat × Nat) (hres : 1 ≤ p.Resolution) :
    (∃ rest, (RotExt.Execute p trans m).polys
        = RotExt.catMap
            (RotExt.quadStrip (RotExt.isFullRev p) p.Resolution.toNat
              m.points.length)
            (RotExt.freeEdges m) ++ rest)
    ∧ RotExt.countE e (RotExt.freeEdges m)
        = (if RotExt.edgeUseCount m e = 1 then 1 else 0)
    ∧ ((RotExt.quadStrip (RotExt.isFullRev p) p.Resolution.toNat
          m.points.length e).length : Int) = p.Resolution := by
  refine ⟨⟨RotExt.catMap
        (RotExt.quadStrip (RotExt.isFullRev p) p.Resolution.toNat m.points.length)
        (RotExt.catMap RotExt.lineSegments m.lines)
      ++ (if (p.Capping != 0) && (! RotExt.isFullRev p)
          then m.polys ++ m.polys.map
            (RotExt.capAtTop p.Resolution.toNat m.points.length)
          else []), ?_⟩,
    RotExt.countE_freeEdges m e, ?_⟩
  · simp [RotExt.Execute, List.append_assoc]
  · rw [RotExt.quadStrip_length]
    omega

/-- Witness for C1 on the square polygon at resolution 2, edge (0, 1). -/
theorem C1_free_edge_skirt_witness :
    (1 : Int) ≤ RotExt.sqParams.Resolution
    ∧ ((∃ rest, (RotExt.Execute RotExt.sqParams RotExt.sqTrans RotExt.sqMesh).polys
          = RotExt.catMap
              (RotExt.quadStrip (RotExt.isFullRev RotExt.sqParams)
                RotExt.sqParams.Resolution.toNat RotExt.sqMesh.points.length)
              (RotExt.freeEdges RotExt.sqMesh) ++ rest)
       ∧ RotExt.countE (0, 1) (RotExt.freeEdges RotExt.sqMesh)
          = (if RotExt.edgeUseCount RotExt.sqMesh (0, 1) = 1 then 1 else 0)
       ∧ ((RotExt.quadStrip (RotExt.isFullRev RotExt.sqParams)
            RotExt.sqParams.Resolution.toNat RotExt.sqMesh.points.length
            (0, 1)).length : Int) = RotExt.sqParams.Resolution) :=
  ⟨by decide,
   C1_free_edge_skirt RotExt.sqMesh RotExt.sqParams RotExt.sqTrans (0, 1) (by decide)⟩

/-- C2: for every input mesh with N points and Resolution at least 1,
the output of Execute holds N * (Resolution + 1) points when the sweep
is not closed and N * Resolution points when it is closed, and input
point i at ring k sits at output index k * N + i. -/
theorem C2_point_count_and_index {P : Type} (m : RotExt.Mesh P)
    (p : RotExt.ExtrusionParams) (trans : Nat → P → P)
    (k i : Nat) (hres : 1 ≤ p.Resolution)
    (hk : k < (if RotExt.isFullRev p then p.Resolution.toNat
               else p.Resolution.toNat + 1))
    (hi : i < m.points.length) :
    (((RotExt.Execute p trans m).points.length : Int)
      = m.points.length * (if RotExt.isFullRev p then p.Resolution
                           else p.Resolution + 1))
    ∧ (RotExt.Execute p trans m).points[k * m.points.length + i]?
        = (m.points[i]?).map (trans k) := by
  constructor
  · have hmax : p.Resolution ⊔ 0 = p.Resolution := max_eq_left (by omega)
    cases hfull : RotExt.isFullRev p <;>
      simp [RotExt.Execute, hfull, RotExt.ringsPoints_length] <;>
      rw [hmax] <;>
      ring
  · have := RotExt.ringsPoints_getElem trans m.points
      (if RotExt.isFullRev p then p.Resolution.toNat else p.Resolution.toNat + 1)
      k i hk hi
    simpa [RotExt.Execute] using this

/-- Witness for C2 on the swept line at resolution 4 (closed sweep),
ring 3, point 1. -/
theorem C2_point_count_and_index_witness :
    ((1 : Int) ≤ RotExt.circParams.Resolution
     ∧ 3 < (if RotExt.isFullRev RotExt.circParams
            then RotExt.circParams.Resolution.toNat
            else RotExt.circParams.Resolution.toNat + 1)
     ∧ 1 < RotExt.circMesh.points.length)
    ∧ ((((RotExt.Execute RotExt.circParams RotExt.sqTrans
            RotExt.circMesh).points.length : Int)
        = RotExt.circMesh.points.length
            * (if RotExt.isFullRev RotExt.circParams
               then RotExt.circParams.Resolution
               else RotExt.circParams.Resolution + 1))
       ∧ (RotExt.Execute RotExt.circParams RotExt.sqTrans
            RotExt.circMesh).points[3 * RotExt.circMesh.points.length + 1]?
          = (RotExt.circMesh.points[1]?).map (RotExt.sqTrans 3)) :=
  ⟨⟨by decide, by decide, by decide⟩,
   C2_point_count_and_index RotExt.circMesh RotExt.circParams RotExt.sqTrans 3 1
     (by decide) (by decide) (by decide)⟩

/-- C3: if Capping is enabled but the full-revolution predicate holds,
Execute emits no cap cells: the polygon array holds exactly the skirt
quads of the free edges and line segments, and the strip array is
empty. -/
theorem C3_cap_suppression {P : Type} (m : RotExt.Mesh P)
    (p : RotExt.ExtrusionParams) (trans : Nat → P → P)
    (_hcap : p.Capping ≠ 0) (hfull : RotExt.isFullRev p = true) :
    (RotExt.Execute p trans m).polys.length
      = ((RotExt.freeEdges m).length
         + (RotExt.catMap RotExt.lineSegments m.lines).length)
          * p.Resolution.toNat
    ∧ (RotExt.Execute p trans m).strips = [] := by
  constructor
  · simp [RotExt.Execute, hfull,
      RotExt.catMap_length_const
        (RotExt.quadStrip true p.Resolution.toNat m.points.length)
        p.Resolution.toNat
        (fun e => RotExt.quadStrip_length true _ _ e),
      Nat.add_mul]
  · simp [RotExt.Execute, hfull]

/-- Witness for C3 on the square polygon with capping on and a full
revolution at resolution 2. -/
theorem C3_cap_suppression_witness :
    (RotExt.capParams.Capping ≠ 0 ∧ RotExt.isFullRev RotExt.capParams = true)
    ∧ ((RotExt.Execute RotExt.capParams RotExt.sqTrans RotExt.sqMesh).polys.length
        = ((RotExt.freeEdges RotExt.sqMesh).length
           + (RotExt.catMap RotExt.lineSegments RotExt.sqMesh.lines).length)
            * RotExt.capParams.Resolution.toNat
       ∧ (RotExt.Execute RotExt.capParams RotExt.sqTrans RotExt.sqMesh).strips
          = []) :=
  ⟨⟨by decide, by decide⟩,
   C3_cap_suppression RotExt.sqMesh RotExt.capParams RotExt.sqTrans
     (by decide) (by decide)⟩

/-- C9: for every int v, after SetResolution v the stored Resolution (as
read by GetResolution) is at least 1, and it equals v clamped into
[1, 2147483647], so any v below 1 is silently clamped to 1. -/
theorem C9_resolution_clamped (p : RotExt.ExtrusionParams) (v : Int) :
    1 ≤ RotExt.GetResolution (RotExt.SetResolution p v)
    ∧ RotExt.GetResolution (RotExt.SetResolution p v) = max 1 (min v 2147483647) := by
  simp only [RotExt.GetResolution, RotExt.SetResolution]
  constructor <;> split_ifs <;> omega

/-- C10: the setters for Angle, Translation and DeltaRadius store the
given value exactly (the getter returns it) and change no other
configuration field. -/
theorem C10_plain_setters (p : RotExt.ExtrusionParams) (v : ℚ) :
    (RotExt.GetAngle (RotExt.SetAngle p v) = v
     ∧ RotExt.GetResolution (RotExt.SetAngle p v) = RotExt.GetResolution p
     ∧ RotExt.GetCapping (RotExt.SetAngle p v) = RotExt.GetCapping p
     ∧ RotExt.GetTranslation (RotExt.SetAngle p v) = RotExt.GetTranslation p
     ∧ RotExt.GetDeltaRadius (RotExt.SetAngle p v) = RotExt.GetDeltaRadius p)
    ∧ (RotExt.GetTranslation (RotExt.SetTranslation p v) = v
     ∧ RotExt.GetResolution (RotExt.SetTranslation p v) = RotExt.GetResolution p
     ∧ RotExt.GetCapping (RotExt.SetTranslation p v) = RotExt.GetCapping p
     ∧ RotExt.GetAngle (RotExt.SetTranslation p v) = RotExt.GetAngle p
     ∧ RotExt.GetDeltaRadius (RotExt.SetTranslation p v) = RotExt.GetDeltaRadius p)
    ∧ (RotExt.GetDeltaRadius (RotExt.SetDeltaRadius p v) = v
     ∧ RotExt.GetResolution (RotExt.SetDeltaRadius p v) = RotExt.GetResolution p
     ∧ RotExt.GetCapping (RotExt.SetDeltaRadius p v) = RotExt.GetCapping p
     ∧ RotExt.GetAngle (RotExt.SetDeltaRadius p v) = RotExt.GetAngle p
     ∧ RotExt.GetTranslation (RotExt.SetDeltaRadius p v) = RotExt.GetTranslation p) :=
  ⟨⟨rfl, rfl, rfl, rfl, rfl⟩, ⟨rfl, rfl, rfl, rfl, rfl⟩, ⟨rfl, rfl, rfl, rfl, rfl⟩⟩
